import Mathlib

/-!
# taproot-assets: address book queries, persisted MSSMT rows, sync policy

A shallow embedding of `tarodb/addrs.go` (the `TaroAddressBook` read paths) and of the
row types of `tapdb/sqlc/models.go`, together with the properties established for them.

Go machine integers are integers with explicit two's-complement wrapping, Go `error`
values are an inductive type with the `Unwrap` chain made explicit, and the SQL backend
behind the `AddrBook` interface is a record of query functions whose calls are logged.
The functions of Go's `time` package that `QueryAddrs` relies on follow `time/time.go`.

The MSSMT engine and the resolution of the federation sync policy are declared outside
`src/`; they are modelled from the design document, and each such definition says so.
-/

namespace Taproot

/-! ## Go machine integers -/

/-- Signed two's-complement integers with `w` value bits (`w + 1` bits in total). -/
abbrev SInt (w : Nat) : Type := { x : Int // -((2 : Int) ^ w) ≤ x ∧ x < (2 : Int) ^ w }

/-- Unsigned integers of `w` bits. -/
abbrev UIntN (w : Nat) : Type := { x : Int // 0 ≤ x ∧ x < (2 : Int) ^ w }

/-- Go `int16`. -/
abbrev int16 : Type := SInt 15
/-- Go `int32`. -/
abbrev int32 : Type := SInt 31
/-- Go `int64`. -/
abbrev int64 : Type := SInt 63
/-- Go `uint8`. -/
abbrev uint8 : Type := UIntN 8
/-- Go `uint32`. -/
abbrev uint32 : Type := UIntN 32
/-- Go `uint64`. -/
abbrev uint64 : Type := UIntN 64

/-- Conversion of an integer value to a signed Go integer type: the value is reduced
modulo `2 ^ (w + 1)` into the two's-complement range (Go conversions never trap). -/
def SInt.wrap (w : Nat) (x : Int) : SInt w :=
  ⟨(x + 2 ^ w) % 2 ^ (w + 1) - 2 ^ w, by
    have hp : (0 : Int) < 2 ^ (w + 1) := by positivity
    have h1 := Int.emod_nonneg (x + 2 ^ w) (ne_of_gt hp)
    have h2 := Int.emod_lt_of_pos (x + 2 ^ w) hp
    have h3 : (2 : Int) ^ (w + 1) = 2 * 2 ^ w := by ring
    constructor <;> omega⟩

/-- Conversion of an integer value to an unsigned Go integer type (reduction modulo `2 ^ w`). -/
def UIntN.wrap (w : Nat) (x : Int) : UIntN w :=
  ⟨x % 2 ^ w, by
    have hp : (0 : Int) < 2 ^ w := by positivity
    exact ⟨Int.emod_nonneg x (ne_of_gt hp), Int.emod_lt_of_pos x hp⟩⟩

/-- The Go conversion `int32(x)`. -/
def toInt32 (x : Int) : int32 := SInt.wrap 31 x
/-- The Go conversion `int64(x)`. -/
def toInt64 (x : Int) : int64 := SInt.wrap 63 x
/-- The Go conversion `uint8(x)`. -/
def toUint8 (x : Int) : uint8 := UIntN.wrap 8 x
/-- The Go conversion `uint32(x)`. -/
def toUint32 (x : Int) : uint32 := UIntN.wrap 32 x
/-- The Go conversion `uint64(x)`. -/
def toUint64 (x : Int) : uint64 := UIntN.wrap 64 x

/-- The Go constant `math.MaxInt64`. -/
def math.MaxInt64 : int64 := ⟨9223372036854775807, by norm_num⟩

/-! ## Go errors -/

/-- Go `error` values as they occur in `addrs.go`. Sentinel errors declared in different
packages (`sql.ErrNoRows` in `database/sql`, `address.ErrNoAddr` in `address`) are distinct
values; `fmt.Errorf("...: %w", err)` yields a value whose `Unwrap` is `err`. -/
inductive GoError where
  /-- The sentinel `sql.ErrNoRows`. -/
  | sqlErrNoRows : GoError
  /-- The sentinel `address.ErrNoAddr`. -/
  | addressErrNoAddr : GoError
  /-- Any other leaf error (driver failure, key decoding failure, ...). -/
  | other (msg : String) : GoError
  /-- The result of `fmt.Errorf(msg + ": %w", inner)`. -/
  | wrapped (msg : String) (inner : GoError) : GoError
  deriving DecidableEq, Repr

/-- The Go function `errors.Is(err, target)`: `err` or an error along its `Unwrap` chain equals `target`. -/
def errors.Is : GoError → GoError → Bool
  | GoError.wrapped msg inner, target =>
      decide (GoError.wrapped msg inner = target) || errors.Is inner target
  | e, target => decide (e = target)

/-! ## Go `time.Time` -/

/-- Go `*time.Location` as far as `addrs.go` meets it: the nil location of the zero `Time`
(meaning UTC), `time.UTC`, and `time.Local`. -/
inductive Location where
  | nilLoc : Location
  | UTC : Location
  | Local : Location
  deriving DecidableEq, Repr

/-- Go `time.Time`: `wall` packs a `hasMonotonic` flag (bit 63), 33 bits of seconds and 30
bits of nanoseconds; without the flag, `ext` holds the full signed 64-bit count of seconds
since January 1, year 1. -/
structure Time where
  wall : uint64
  ext : int64
  loc : Location
  deriving DecidableEq

namespace time

/-- Go `time.hasMonotonic = 1 << 63`. -/
def hasMonotonic : Nat := 2 ^ 63
/-- Go `time.nsecMask = 1<<30 - 1`. -/
def nsecMask : Nat := 2 ^ 30 - 1
/-- Go `time.nsecShift = 30`. -/
def nsecShift : Nat := 30
/-- Go `time.secondsPerDay`. -/
def secondsPerDay : Int := 86400
/-- Go `time.unixToInternal`: seconds from year 1 to 1970. -/
def unixToInternal : Int := (1969 * 365 + 1969 / 4 - 1969 / 100 + 1969 / 400) * secondsPerDay
/-- Go `time.internalToUnix`. -/
def internalToUnix : Int := -unixToInternal
/-- Go `time.wallToInternal`: seconds from year 1 to 1885. -/
def wallToInternal : Int := (1884 * 365 + 1884 / 4 - 1884 / 100 + 1884 / 400) * secondsPerDay

/-- Go `(*Time).nsec`: `int32(t.wall & nsecMask)`. -/
def nsec (t : Time) : int32 := toInt32 (Nat.land t.wall.val.toNat nsecMask)

/-- Go `(*Time).sec`: seconds since January 1, year 1. With the monotonic flag the 33-bit
wall seconds are used, `wallToInternal + int64(t.wall<<1>>(nsecShift+1))`; otherwise `t.ext`. -/
def sec (t : Time) : int64 :=
  if Nat.land t.wall.val.toNat hasMonotonic ≠ 0 then
    toInt64 (wallToInternal + ((t.wall.val.toNat * 2 % 2 ^ 64) / 2 ^ (nsecShift + 1) : Nat))
  else t.ext

/-- Go `(*Time).unixSec`: `t.sec() + internalToUnix`. -/
def unixSec (t : Time) : int64 := toInt64 ((sec t).val + internalToUnix)

/-- Go `Time.Unix`: seconds since January 1, 1970. -/
def UnixOf (t : Time) : int64 := unixSec t

/-- Go `Time.IsZero`: `t.sec() == 0 && t.nsec() == 0`. -/
def IsZero (t : Time) : Bool := decide ((sec t).val = 0) && decide ((nsec t).val = 0)

/-- Go `time.unixTime(sec, nsec)`: `Time{uint64(nsec), sec + unixToInternal, Local}`; the
`int64` addition wraps. -/
def unixTime (s : int64) (ns : int32) : Time :=
  { wall := toUint64 ns.val, ext := toInt64 (s.val + unixToInternal), loc := Location.Local }

/-- Go `time.Unix(sec, nsec)`: normalises `nsec` into `[0, 1e9)` carrying into `sec`, then
builds the time with `unixTime`. -/
def Unix (s : int64) (ns : int64) : Time :=
  if ns.val < 0 ∨ ns.val ≥ 1000000000 then
    let n := Int.tdiv ns.val 1000000000
    let s1 := toInt64 (s.val + n)
    let ns1 := toInt64 (ns.val - n * 1000000000)
    if ns1.val < 0 then
      unixTime (toInt64 (s1.val - 1)) (toInt32 (ns1.val + 1000000000))
    else unixTime s1 (toInt32 ns1.val)
  else unixTime s (toInt32 ns.val)

/-- The zero value `time.Time{}`. -/
def zero : Time :=
  { wall := ⟨0, by norm_num⟩, ext := ⟨0, by norm_num⟩, loc := Location.nilLoc }

end time

/-! ## Keys and rows met by the address book -/

/-- Go `[]byte`. -/
abbrev Bytes : Type := List UInt8

/-- The type `btcec.PublicKey` (package `btcec`, an external library): a curve point. -/
structure PublicKey where
  x : Nat
  y : Nat
  deriving DecidableEq, Repr

/-- The key parsing and serialisation functions of the external `btcec` and `schnorr`
packages that `addrs.go` calls; they are parameters of the embedding. -/
structure Btcec where
  /-- The function `btcec.ParsePubKey`. -/
  ParsePubKey : Bytes → Except GoError PublicKey
  /-- The function `schnorr.ParsePubKey`. -/
  schnorrParsePubKey : Bytes → Except GoError PublicKey
  /-- The function `schnorr.SerializePubKey`. -/
  schnorrSerializePubKey : PublicKey → Bytes

/-- Modelled from the spec: `sqlite.FetchAddrsParams` (alias `AddrQuery`) is declared
outside `src/`; the fields are those the struct literal in `QueryAddrs` sets. -/
structure AddrQuery where
  CreatedAfter : Time
  CreatedBefore : Time
  NumOffset : int32
  NumLimit : int32
  deriving DecidableEq

/-- Modelled from the spec: `address.QueryParams` is declared outside `src/`; the fields
are those `QueryAddrs` reads (`limit = params.Limit` fixes `Limit` to `int32`). -/
structure QueryParams where
  CreatedAfter : Time
  CreatedBefore : Time
  Offset : int32
  Limit : int32
  deriving DecidableEq

/-- Modelled from the spec: `sqlite.FetchAddrsRow` (alias `Addresses`) is declared outside
`src/`; the fields are those `QueryAddrs` reads. A nil `FamKey` is `none`. -/
structure Addresses where
  Version : int16
  AssetID : Bytes
  FamKey : Option Bytes
  TaprootOutputKey : Bytes
  Amount : int64
  AssetType : int16
  CreationTime : Time
  TweakedScriptKey : Bytes
  ScriptKeyTweak : Bytes
  RawScriptKey : Bytes
  ScriptKeyFamily : int32
  ScriptKeyIndex : int32
  RawTaprootKey : Bytes
  TaprootKeyFamily : int32
  TaprootKeyIndex : int32
  deriving DecidableEq

/-- Modelled from the spec: `sqlite.FetchAddrByTaprootOutputKeyRow` (alias
`AddrByTaprootOutput`) is declared outside `src/`; the fields are those `fetchAddr` reads. -/
structure AddrByTaprootOutputRow where
  Version : int16
  AssetID : Bytes
  FamKey : Option Bytes
  Amount : int64
  AssetType : int16
  CreationTime : Time
  TweakedScriptKey : Bytes
  ScriptKeyTweak : Bytes
  RawScriptKey : Bytes
  ScriptKeyFamily : int32
  ScriptKeyIndex : int32
  RawTaprootKey : Bytes
  TaprootKeyFamily : int32
  TaprootKeyIndex : int32
  deriving DecidableEq

/-- The type `keychain.KeyLocator` (external package `lnd/keychain`). -/
structure KeyLocator where
  Family : uint32
  Index : uint32
  deriving DecidableEq

/-- The type `keychain.KeyDescriptor`. -/
structure KeyDescriptor where
  KeyLocator : KeyLocator
  PubKey : PublicKey
  deriving DecidableEq

/-- The type `asset.TweakedScriptKey`. -/
structure TweakedScriptKey where
  RawKey : KeyDescriptor
  Tweak : Bytes
  deriving DecidableEq

/-- The type `address.Taro`, with the fields the address book fills in. -/
structure Taro where
  Version : uint8
  ID : Bytes
  FamilyKey : Option PublicKey
  ScriptKey : PublicKey
  InternalKey : PublicKey
  Amount : uint64
  /-- The Go field `Type`. -/
  AssetType : uint8
  deriving DecidableEq

/-- The type `address.AddrWithKeyInfo`. -/
structure AddrWithKeyInfo where
  Taro : Taro
  ScriptKeyTweak : TweakedScriptKey
  InternalKeyDesc : KeyDescriptor
  TaprootOutputKey : PublicKey
  CreationTime : Time
  deriving DecidableEq

/-- The statements `var assetID asset.ID; copy(assetID[:], src)`: the first 32 bytes of
`src`, padded with zero bytes to the fixed length 32. -/
def copyAssetID (src : Bytes) : Bytes :=
  src.take 32 ++ List.replicate (32 - (src.take 32).length) 0

/-! ## The storage backend -/

/-- The read methods of the `AddrBook` interface (addrs.go:40-60); an implementation is a
record of its query functions. -/
structure AddrBook where
  /-- Returns all the addresses matching the passed `AddrQuery`. -/
  FetchAddrs : AddrQuery → Except GoError (List Addresses)
  /-- Returns a single address by Taproot output key, or `sql.ErrNoRows`. -/
  FetchAddrByTaprootOutputKey : Bytes → Except GoError AddrByTaprootOutputRow

/-- A call received by the backend, with its argument. -/
inductive BackendCall where
  | FetchAddrs (arg : AddrQuery) : BackendCall
  | FetchAddrByTaprootOutputKey (arg : Bytes) : BackendCall
  deriving DecidableEq

/-- The outcome of code that talks to the backend: the calls it made, in order, and its
Go result `(value, error)`. -/
structure Traced (α : Type) where
  calls : List BackendCall
  result : Except GoError α

/-- The type `AssetStoreTxOptions`, as built by `NewAddrBookReadTx`. -/
structure AssetStoreTxOptions where
  readOnly : Bool
  deriving DecidableEq

/-- The function `NewAddrBookReadTx` (addrs.go:76-81). -/
def NewAddrBookReadTx : AssetStoreTxOptions := { readOnly := true }

/-- The `BatchedAddrBook` interface (addrs.go:85-89): an `AddrBook` that can run a
transaction. Whether opening and committing a transaction succeed is part of the backend. -/
structure BatchedAddrBook extends AddrBook where
  /-- The error of opening a transaction, if it fails. -/
  beginErr : Option GoError
  /-- The error of committing a transaction, if it fails. -/
  commitErr : Option GoError

/-- Modelled from the spec: `ExecTx` of `BatchedTx` is declared outside `src/`. Following
§2 item 6 and §7 (one atomic unit of work; an error aborts the unit and is surfaced to the
caller): the transaction is opened, `txBody` runs once against the backend, its error
aborts and is returned unchanged, otherwise the transaction is committed. The value is that
of the variables `txBody` assigns. -/
def BatchedAddrBook.ExecTx {α : Type} (db : BatchedAddrBook) (_txOptions : AssetStoreTxOptions)
    (txBody : AddrBook → Traced α) : Traced α :=
  match db.beginErr with
  | some e => { calls := [], result := Except.error e }
  | none =>
    let r := txBody db.toAddrBook
    match r.result with
    | Except.error e => { calls := r.calls, result := Except.error e }
    | Except.ok a =>
      match db.commitErr with
      | some e => { calls := r.calls, result := Except.error e }
      | none => { calls := r.calls, result := Except.ok a }

/-- The type `TaroAddressBook` (addrs.go:93-95). -/
structure TaroAddressBook where
  db : BatchedAddrBook

/-- The function `NewTaroAddressBook` (addrs.go:99-103). -/
def NewTaroAddressBook (db : BatchedAddrBook) : TaroAddressBook := { db := db }

/-! ## QueryAddrs -/

/-- The body of the loop in `QueryAddrs` (addrs.go:218-294): one row is decoded into an
`AddrWithKeyInfo`; the first key that fails to parse ends the transaction body. -/
def QueryAddrs.row (c : Btcec) (addr : Addresses) : Except GoError AddrWithKeyInfo := do
  let assetID := copyAssetID addr.AssetID
  let famKey ← match addr.FamKey with
    | some fk =>
      match c.ParsePubKey fk with
      | Except.ok k => Except.ok (some k)
      | Except.error err => Except.error (GoError.wrapped "unable to decode fam key" err)
    | none => Except.ok none
  let rawScriptKey ← match c.ParsePubKey addr.RawScriptKey with
    | Except.ok k => Except.ok k
    | Except.error err => Except.error (GoError.wrapped "unable to decode script key" err)
  let rawScriptKeyDesc : KeyDescriptor :=
    { KeyLocator :=
        { Family := toUint32 addr.ScriptKeyFamily.val, Index := toUint32 addr.ScriptKeyIndex.val },
      PubKey := rawScriptKey }
  let internalKey ← match c.ParsePubKey addr.RawTaprootKey with
    | Except.ok k => Except.ok k
    | Except.error err => Except.error (GoError.wrapped "unable to decode taproot key" err)
  let internalKeyDesc : KeyDescriptor :=
    { KeyLocator :=
        { Family := toUint32 addr.TaprootKeyFamily.val,
          Index := toUint32 addr.TaprootKeyIndex.val },
      PubKey := internalKey }
  let scriptKey ← c.ParsePubKey addr.TweakedScriptKey
  let taprootOutputKey ← match c.schnorrParsePubKey addr.TaprootOutputKey with
    | Except.ok k => Except.ok k
    | Except.error err =>
      Except.error (GoError.wrapped "unable to parse taproot output key" err)
  return {
    Taro :=
      { Version := toUint8 addr.Version.val, ID := assetID, FamilyKey := famKey,
        ScriptKey := scriptKey, InternalKey := internalKey,
        Amount := toUint64 addr.Amount.val, AssetType := toUint8 addr.AssetType.val },
    ScriptKeyTweak := { RawKey := rawScriptKeyDesc, Tweak := addr.ScriptKeyTweak },
    InternalKeyDesc := internalKeyDesc,
    TaprootOutputKey := taprootOutputKey,
    CreationTime := addr.CreationTime }

/-- The loop `for _, addr := range dbAddrs` of `QueryAddrs`, appending to `addrs`. -/
def QueryAddrs.rows (c : Btcec) :
    List Addresses → List AddrWithKeyInfo → Except GoError (List AddrWithKeyInfo)
  | [], addrs => Except.ok addrs
  | addr :: rest, addrs =>
    match QueryAddrs.row c addr with
    | Except.error err => Except.error err
    | Except.ok a => QueryAddrs.rows c rest (addrs ++ [a])

/-- The method `TaroAddressBook.QueryAddrs` (addrs.go:181-303). -/
def QueryAddrs (c : Btcec) (t : TaroAddressBook) (params : QueryParams) :
    Traced (List AddrWithKeyInfo) :=
  let addrs : List AddrWithKeyInfo := []
  -- If the created before time is zero, a very large date is used.
  let params : QueryParams :=
    if time.IsZero params.CreatedBefore then
      { params with CreatedBefore := time.Unix math.MaxInt64 (toInt64 0) }
    else params
  -- For sqlite a LIMIT of -1 means no rows are limited.
  let limit : int32 := toInt32 (-1)
  let limit : int32 := if params.Limit.val ≠ 0 then params.Limit else limit
  let readOpts := NewAddrBookReadTx
  t.db.ExecTx readOpts fun db =>
    let arg : AddrQuery :=
      { CreatedAfter := params.CreatedAfter,
        CreatedBefore := params.CreatedBefore,
        NumOffset := toInt32 params.Offset.val,
        NumLimit := limit }
    { calls := [BackendCall.FetchAddrs arg],
      result :=
        match db.FetchAddrs arg with
        | Except.error err => Except.error err
        | Except.ok dbAddrs => QueryAddrs.rows c dbAddrs addrs }

/-! ## AddrByTaprootOutput -/

/-- The function `fetchAddr` (addrs.go:328-405). -/
def fetchAddr (c : Btcec) (db : AddrBook) (taprootOutputKey : PublicKey) :
    Traced AddrWithKeyInfo :=
  let arg := c.schnorrSerializePubKey taprootOutputKey
  { calls := [BackendCall.FetchAddrByTaprootOutputKey arg],
    result :=
      match db.FetchAddrByTaprootOutputKey arg with
      | Except.error err =>
        if errors.Is err GoError.sqlErrNoRows then Except.error GoError.addressErrNoAddr
        else Except.error err
      | Except.ok dbAddr => do
        let assetID := copyAssetID dbAddr.AssetID
        let famKey ← match dbAddr.FamKey with
          | some fk =>
            match c.ParsePubKey fk with
            | Except.ok k => Except.ok (some k)
            | Except.error err => Except.error (GoError.wrapped "unable to decode fam key" err)
          | none => Except.ok none
        let rawScriptKey ← match c.ParsePubKey dbAddr.RawScriptKey with
          | Except.ok k => Except.ok k
          | Except.error err =>
            Except.error (GoError.wrapped "unable to decode script key" err)
        let scriptKeyDesc : KeyDescriptor :=
          { KeyLocator :=
              { Family := toUint32 dbAddr.ScriptKeyFamily.val,
                Index := toUint32 dbAddr.ScriptKeyIndex.val },
            PubKey := rawScriptKey }
        let scriptKey ← match c.ParsePubKey dbAddr.TweakedScriptKey with
          | Except.ok k => Except.ok k
          | Except.error err =>
            Except.error (GoError.wrapped "unable to decode script key" err)
        let internalKey ← match c.ParsePubKey dbAddr.RawTaprootKey with
          | Except.ok k => Except.ok k
          | Except.error err =>
            Except.error (GoError.wrapped "unable to decode taproot key" err)
        let internalKeyDesc : KeyDescriptor :=
          { KeyLocator :=
              { Family := toUint32 dbAddr.TaprootKeyFamily.val,
                Index := toUint32 dbAddr.TaprootKeyIndex.val },
            PubKey := internalKey }
        return {
          Taro :=
            { Version := toUint8 dbAddr.Version.val, ID := assetID, FamilyKey := famKey,
              ScriptKey := scriptKey, InternalKey := internalKey,
              Amount := toUint64 dbAddr.Amount.val, AssetType := toUint8 dbAddr.AssetType.val },
          ScriptKeyTweak := { RawKey := scriptKeyDesc, Tweak := dbAddr.ScriptKeyTweak },
          InternalKeyDesc := internalKeyDesc,
          TaprootOutputKey := taprootOutputKey,
          CreationTime := dbAddr.CreationTime } }

/-- The method `TaroAddressBook.AddrByTaprootOutput` (addrs.go:307-324). -/
def AddrByTaprootOutput (c : Btcec) (t : TaroAddressBook) (key : PublicKey) :
    Traced AddrWithKeyInfo :=
  let readOpts := NewAddrBookReadTx
  t.db.ExecTx readOpts fun db => fetchAddr c db key

/-! ## Persisted rows of `tapdb/sqlc/models.go` -/

/-- The row type `MssmtNode` (models.go:258-266). -/
structure MssmtNode where
  HashKey : Bytes
  LHashKey : Bytes
  RHashKey : Bytes
  Key : Bytes
  Value : Bytes
  Sum : int64
  Namespace : String
  deriving DecidableEq

/-- The row type `MssmtRoot` (models.go:268-271). -/
structure MssmtRoot where
  Namespace : String
  RootHash : Bytes
  deriving DecidableEq

/-- The row type `FederationGlobalSyncConfig` (models.go:166-170). -/
structure FederationGlobalSyncConfig where
  ProofType : String
  AllowSyncInsert : Bool
  AllowSyncExport : Bool
  deriving DecidableEq

/-- The row type `FederationUniSyncConfig` (models.go:183-190). -/
structure FederationUniSyncConfig where
  Namespace : String
  AssetID : Bytes
  GroupKey : Bytes
  ProofType : String
  AllowSyncInsert : Bool
  AllowSyncExport : Bool
  deriving DecidableEq

/-! ## Federation sync policy -/

/-- The decision of the sync policy for one namespace. -/
structure SyncPolicy where
  allowSyncInsert : Bool
  allowSyncExport : Bool
  deriving DecidableEq

/-- Modelled from the spec: the code that resolves the sync policy is outside `src/` (only
the two config row types are). Following §4.5, "per-namespace config overrides; absent,
fall back to global config; absent, default to deny (fail closed) for both insert and
export": the row of `federation_namespace_sync_config` with the namespace is looked up,
then the row of `federation_global_sync_config` with the proof type. -/
def resolveSyncPolicy (uniConfigs : List FederationUniSyncConfig)
    (globalConfigs : List FederationGlobalSyncConfig) (namespaceID : String)
    (proofType : String) : SyncPolicy :=
  match uniConfigs.find? (fun c => c.Namespace == namespaceID) with
  | some c => { allowSyncInsert := c.AllowSyncInsert, allowSyncExport := c.AllowSyncExport }
  | none =>
    match globalConfigs.find? (fun g => g.ProofType == proofType) with
    | some g => { allowSyncInsert := g.AllowSyncInsert, allowSyncExport := g.AllowSyncExport }
    | none => { allowSyncInsert := false, allowSyncExport := false }

/-! ## The Merkle-Sum Sparse Merkle Tree -/

namespace mssmt

/-- A tree key: 32 bytes. -/
abbrev Key : Type := { k : Bytes // k.length = 32 }

/-- The depth of the tree: the bit length of a key. -/
def MaxTreeLevels : Nat := 256

/-- Modelled from the spec: the MSSMT engine is outside `src/` (only its persisted rows
`MssmtNode` and `MssmtRoot` are). Following §3, a node is a leaf `(key, value, sum)`, a
branch of two children, or the canonical empty node standing for an empty subtree. A
child is held by the node itself where the store holds the hash that addresses it. -/
inductive Node where
  | empty : Node
  | leaf (key : Key) (value : Bytes) (sum : uint64) : Node
  | branch (left right : Node) : Node
  deriving DecidableEq

/-- Modelled from the spec: the hashing of nodes (§3, §4.2) is outside `src/`. The hash
function `H`, the serialisation of a leaf and of a sum, and the well-known hash of the
empty subtree at each height are parameters. -/
structure Hasher where
  H : Bytes → Bytes
  serializeLeaf : Key → Bytes → uint64 → Bytes
  serializeSum : uint64 → Bytes
  emptyHash : Nat → Bytes

/-- Modelled from the spec: the sum of a node (§3): a leaf carries its sum, a branch has
`sum = left.sum + right.sum` in `uint64`, the empty node has sum 0. -/
def Node.sum : Node → uint64
  | Node.empty => toUint64 0
  | Node.leaf _ _ s => s
  | Node.branch l r => toUint64 ((Node.sum l).val + (Node.sum r).val)

/-- Modelled from the spec: the hash of a node at a height (§3, §4.2): `H(serialized node)`
for a leaf, `H(left_hash || right_hash || left_sum || right_sum)` for a branch, and the
well-known constant for the empty node. -/
def Node.hash (hs : Hasher) : Nat → Node → Bytes
  | h, Node.empty => hs.emptyHash h
  | _, Node.leaf k v s => hs.H (hs.serializeLeaf k v s)
  | h, Node.branch l r =>
    hs.H (Node.hash hs (h - 1) l ++ Node.hash hs (h - 1) r ++
      hs.serializeSum (Node.sum l) ++ hs.serializeSum (Node.sum r))

/-- Modelled from the spec: bit `idx` of a key, in the fixed order of the existing
commitments: bit `idx % 8` (least significant first) of byte `idx / 8`. -/
def bitIndex (idx : Nat) (key : Key) : Bool :=
  Nat.testBit (key.val.getD (idx / 8) 0).toNat (idx % 8)

/-- The two children of a node; an empty subtree has two empty subtrees below it. -/
def Node.children : Node → Node × Node
  | Node.branch l r => (l, r)
  | _ => (Node.empty, Node.empty)

/-- Modelled from the spec: the walk of `Insert` (§4.2) below a node of the given height:
at each level the next bit of the key selects the child that is rebuilt, the sibling is
reused, and at height 0 the leaf replaces what was there. -/
def insertAt (key : Key) (value : Bytes) (sum : uint64) : Nat → Node → Node
  | 0, _ => Node.leaf key value sum
  | h + 1, n =>
    if bitIndex (MaxTreeLevels - (h + 1)) key then
      Node.branch n.children.1 (insertAt key value sum h n.children.2)
    else
      Node.branch (insertAt key value sum h n.children.1) n.children.2

/-- Modelled from the spec: `Insert(key, value, sum)` (§4.2) on the root of a tree. -/
def Insert (root : Node) (key : Key) (value : Bytes) (sum : uint64) : Node :=
  insertAt key value sum MaxTreeLevels root

/-- The tree obtained from the empty tree by inserting the triples in the order of the list. -/
def InsertAll (entries : List (Key × Bytes × uint64)) : Node :=
  entries.foldl (fun root e => Insert root e.1 e.2.1 e.2.2) Node.empty

/-- The root hash of a tree. -/
def rootHash (hs : Hasher) (root : Node) : Bytes := Node.hash hs MaxTreeLevels root

/-- The root sum of a tree. -/
def rootSum (root : Node) : uint64 := Node.sum root

end mssmt

/-! ## The created-before filter of the backend -/

/-- Modelled from the spec: the query behind `FetchAddrs` runs in the SQL backend, outside
`src/`. Following the name of the bound and the "optional time-range filter" of §6, a row
passes the created-before filter when its creation time is not later than the bound, the
two being compared as Unix timestamps (the seconds that `Time.Unix` reports). -/
def createdBeforeKeeps (createdBefore creationTime : Time) : Bool :=
  decide ((time.UnixOf creationTime).val ≤ (time.UnixOf createdBefore).val)

namespace Sample

/-- A stand-in for the key functions of `btcec` and `schnorr`: a 33-byte string parses to
the point whose `x` is its first byte, a 32-byte string parses as an x-only key, anything
else is rejected. -/
def btcec : Btcec :=
  { ParsePubKey := fun b =>
      if b.length = 33 then Except.ok { x := (b.headD 0).toNat, y := 0 }
      else Except.error (GoError.other "malformed public key: invalid length"),
    schnorrParsePubKey := fun b =>
      if b.length = 32 then Except.ok { x := (b.headD 0).toNat, y := 0 }
      else Except.error (GoError.other "malformed public key: invalid length"),
    schnorrSerializePubKey := fun k => UInt8.ofNat k.x :: List.replicate 31 0 }

/-- A backend whose address table is empty and whose transactions open and commit. -/
def emptyBackend : BatchedAddrBook :=
  { FetchAddrs := fun _ => Except.ok [],
    FetchAddrByTaprootOutputKey := fun _ => Except.error GoError.sqlErrNoRows,
    beginErr := none,
    commitErr := none }

/-- An address book over the empty backend. -/
def emptyBook : TaroAddressBook := NewTaroAddressBook emptyBackend

/-- A taproot output key. -/
def outputKey : PublicKey := { x := 2, y := 3 }

/-- The zero value `address.QueryParams{}`. -/
def zeroParams : QueryParams :=
  { CreatedAfter := time.zero, CreatedBefore := time.zero,
    Offset := ⟨0, by norm_num⟩, Limit := ⟨0, by norm_num⟩ }

/-- A query whose `CreatedBefore` is `time.Unix(1700000000, 0)`, in November 2023. -/
def boundedParams : QueryParams :=
  { CreatedAfter := time.zero,
    CreatedBefore := time.Unix ⟨1700000000, by norm_num⟩ ⟨0, by norm_num⟩,
    Offset := ⟨0, by norm_num⟩, Limit := ⟨10, by norm_num⟩ }

/-- A per-namespace sync config table with one row. -/
def uniConfigs : List FederationUniSyncConfig :=
  [{ Namespace := "issuance-aa", AssetID := [], GroupKey := [], ProofType := "issuance",
     AllowSyncInsert := true, AllowSyncExport := false }]

/-- A global sync config table with one row. -/
def globalConfigs : List FederationGlobalSyncConfig :=
  [{ ProofType := "issuance", AllowSyncInsert := false, AllowSyncExport := true }]

/-- The key of 32 zero bytes. -/
def keyA : mssmt.Key := ⟨List.replicate 32 0, by decide⟩

/-- The key whose first byte is 1. -/
def keyB : mssmt.Key := ⟨1 :: List.replicate 31 0, by decide⟩

/-- Two entries with distinct keys. -/
def entries : List (mssmt.Key × Bytes × uint64) :=
  [(keyA, [7], ⟨5, by norm_num⟩), (keyB, [9], ⟨11, by norm_num⟩)]

/-- A stand-in hasher: `H` is the identity on byte strings. -/
def hasher : mssmt.Hasher :=
  { H := fun b => b,
    serializeLeaf := fun k v s => k.val ++ v ++ [UInt8.ofNat s.val.toNat],
    serializeSum := fun s => [UInt8.ofNat s.val.toNat],
    emptyHash := fun _ => [] }

end Sample

/-! ## Error of a lookup that finds no address -/

/-- Once the transaction is open, the backend calls of `ExecTx` are those of its body. -/
theorem ExecTx_calls {α : Type} (db : BatchedAddrBook) (opts : AssetStoreTxOptions)
    (txBody : AddrBook → Traced α) (hb : db.beginErr = none) :
    (db.ExecTx opts txBody).calls = (txBody db.toAddrBook).calls := by
  unfold BatchedAddrBook.ExecTx
  rw [hb]
  simp only
  split
  · rfl
  · split <;> rfl

/-- An error of the transaction body is the error of `ExecTx`. -/
theorem ExecTx_result_of_error {α : Type} (db : BatchedAddrBook) (opts : AssetStoreTxOptions)
    (txBody : AddrBook → Traced α) (e : GoError) (hb : db.beginErr = none)
    (hr : (txBody db.toAddrBook).result = Except.error e) :
    (db.ExecTx opts txBody).result = Except.error e := by
  unfold BatchedAddrBook.ExecTx
  rw [hb]
  simp only [hr]

/-- The error `address.ErrNoAddr` is not `sql.ErrNoRows`, also under `errors.Is`. -/
theorem errNoAddr_not_errNoRows :
    errors.Is GoError.addressErrNoAddr GoError.sqlErrNoRows = false := by
  decide

/-- The function `fetchAddr` turns every backend error that is `sql.ErrNoRows` into `address.ErrNoAddr`. -/
theorem fetchAddr_noRows (c : Btcec) (db : AddrBook) (key : PublicKey) (e : GoError)
    (hf : db.FetchAddrByTaprootOutputKey (c.schnorrSerializePubKey key) = Except.error e)
    (hIs : errors.Is e GoError.sqlErrNoRows = true) :
    (fetchAddr c db key).result = Except.error GoError.addressErrNoAddr := by
  simp only [fetchAddr, hf, hIs, if_true]

/-- Claim C1 at a key without a stored address: the backend's lookup reports
`sql.ErrNoRows`, and `AddrByTaprootOutput` returns no address and the error
`address.ErrNoAddr`, which is not `sql.ErrNoRows`, where the claim and the doc comment of
the method (addrs.go:305-306) say the error is `sql.ErrNoRows`. -/
theorem AddrByTaprootOutput_noRows_returns_ErrNoAddr :
    Sample.emptyBook.db.FetchAddrByTaprootOutputKey
        (Sample.btcec.schnorrSerializePubKey Sample.outputKey) =
      Except.error GoError.sqlErrNoRows ∧
    (AddrByTaprootOutput Sample.btcec Sample.emptyBook Sample.outputKey).result =
      Except.error GoError.addressErrNoAddr ∧
    ¬ ∃ e, (AddrByTaprootOutput Sample.btcec Sample.emptyBook Sample.outputKey).result =
        Except.error e ∧ errors.Is e GoError.sqlErrNoRows = true := by
  have hr : (AddrByTaprootOutput Sample.btcec Sample.emptyBook Sample.outputKey).result =
      Except.error GoError.addressErrNoAddr := rfl
  refine ⟨rfl, hr, ?_⟩
  rintro ⟨e, he, hIs⟩
  rw [hr] at he
  injection he with he
  rw [← he] at hIs
  exact absurd hIs (by decide)

/-- What `AddrByTaprootOutput` does for every backend: when the read transaction opens and
the backend's `FetchAddrByTaprootOutputKey` reports an error that is `sql.ErrNoRows`, it
makes that one lookup, returns no address, and returns the error `address.ErrNoAddr`. -/
theorem AddrByTaprootOutput_noRows (c : Btcec) (t : TaroAddressBook) (key : PublicKey)
    (e : GoError) (hb : t.db.beginErr = none)
    (hf : t.db.FetchAddrByTaprootOutputKey (c.schnorrSerializePubKey key) = Except.error e)
    (hIs : errors.Is e GoError.sqlErrNoRows = true) :
    (AddrByTaprootOutput c t key).calls =
        [BackendCall.FetchAddrByTaprootOutputKey (c.schnorrSerializePubKey key)] ∧
      (AddrByTaprootOutput c t key).result = Except.error GoError.addressErrNoAddr ∧
      errors.Is GoError.addressErrNoAddr GoError.sqlErrNoRows = false := by
  have hr := fetchAddr_noRows c t.db.toAddrBook key e hf hIs
  refine ⟨?_, ?_, by decide⟩
  · simp only [AddrByTaprootOutput]
    rw [ExecTx_calls _ _ _ hb]
    rfl
  · simp only [AddrByTaprootOutput]
    exact ExecTx_result_of_error _ _ _ _ hb hr

/-- The lookup without a stored address at the empty backend. -/
theorem AddrByTaprootOutput_noRows_witness :
    (AddrByTaprootOutput Sample.btcec Sample.emptyBook Sample.outputKey).calls =
        [BackendCall.FetchAddrByTaprootOutputKey
          (Sample.btcec.schnorrSerializePubKey Sample.outputKey)] ∧
      (AddrByTaprootOutput Sample.btcec Sample.emptyBook Sample.outputKey).result =
        Except.error GoError.addressErrNoAddr ∧
      errors.Is GoError.addressErrNoAddr GoError.sqlErrNoRows = false :=
  AddrByTaprootOutput_noRows Sample.btcec Sample.emptyBook Sample.outputKey
    GoError.sqlErrNoRows rfl rfl (by decide)

/-! ## The query handed to the backend by QueryAddrs -/

/-- The query that `QueryAddrs` builds from its parameters (addrs.go:186-210). -/
theorem QueryAddrs_calls (c : Btcec) (t : TaroAddressBook) (params : QueryParams)
    (hb : t.db.beginErr = none) :
    (QueryAddrs c t params).calls =
      [BackendCall.FetchAddrs
        { CreatedAfter := params.CreatedAfter,
          CreatedBefore :=
            if time.IsZero params.CreatedBefore then time.Unix math.MaxInt64 (toInt64 0)
            else params.CreatedBefore,
          NumOffset := toInt32 params.Offset.val,
          NumLimit := if params.Limit.val ≠ 0 then params.Limit else toInt32 (-1) }] := by
  simp only [QueryAddrs]
  rw [ExecTx_calls _ _ _ hb]
  by_cases hz : time.IsZero params.CreatedBefore = true
  · simp only [hz, if_true]
  · simp only [hz, if_false, Bool.false_eq_true]

/-- When the transaction cannot be opened, `QueryAddrs` makes no backend call. -/
theorem QueryAddrs_calls_of_beginErr (c : Btcec) (t : TaroAddressBook) (params : QueryParams)
    (e : GoError) (hb : t.db.beginErr = some e) :
    (QueryAddrs c t params).calls = [] ∧ (QueryAddrs c t params).result = Except.error e := by
  simp only [QueryAddrs, BatchedAddrBook.ExecTx, hb, and_self]

/-- Claim C3: for every params, `QueryAddrs` (its read transaction open) makes exactly one
`FetchAddrs` call, whose `NumLimit` is -1 if `params.Limit` is 0 and `params.Limit`
otherwise, whose `CreatedAfter` is `params.CreatedAfter`, and whose `NumOffset` is
`int32(params.Offset)`. -/
theorem QueryAddrs_limit_offset (c : Btcec) (t : TaroAddressBook) (params : QueryParams)
    (hb : t.db.beginErr = none) :
    ∃ q, (QueryAddrs c t params).calls = [BackendCall.FetchAddrs q] ∧
      q.NumLimit.val = (if params.Limit.val = 0 then -1 else params.Limit.val) ∧
      q.CreatedAfter = params.CreatedAfter ∧
      q.NumOffset = toInt32 params.Offset.val := by
  refine ⟨_, QueryAddrs_calls c t params hb, ?_, rfl, rfl⟩
  by_cases hl : params.Limit.val = 0
  · simp only [hl, ne_eq, not_true_eq_false, if_false, if_true]
    decide
  · simp only [hl, ne_eq, not_false_eq_true, if_true, if_false]

/-- Claim C3 at the zero query over the empty backend. -/
theorem QueryAddrs_limit_offset_witness :
    ∃ q, (QueryAddrs Sample.btcec Sample.emptyBook Sample.zeroParams).calls =
        [BackendCall.FetchAddrs q] ∧
      q.NumLimit.val = (if Sample.zeroParams.Limit.val = 0 then -1
        else Sample.zeroParams.Limit.val) ∧
      q.CreatedAfter = Sample.zeroParams.CreatedAfter ∧
      q.NumOffset = toInt32 Sample.zeroParams.Offset.val :=
  QueryAddrs_limit_offset Sample.btcec Sample.emptyBook Sample.zeroParams rfl

/-! ## The created-before bound of QueryAddrs -/

/-- The seconds of `time.Unix(math.MaxInt64, 0)` since year 1 are kept in `int64` and have
wrapped around, while `Time.Unix` of it, which subtracts the offset again, reads
`math.MaxInt64`. -/
theorem Unix_MaxInt64_ext :
    (time.Unix math.MaxInt64 (toInt64 0)).ext.val = -9223371974719179009 ∧
      (time.Unix math.MaxInt64 (toInt64 0)).wall.val = 0 ∧
      (time.UnixOf (time.Unix math.MaxInt64 (toInt64 0))).val = 9223372036854775807 := by
  decide

/-- No time has a later Unix timestamp than `time.Unix(math.MaxInt64, 0)`. -/
theorem UnixOf_le_Unix_MaxInt64 (created : Time) :
    (time.UnixOf created).val ≤ (time.UnixOf (time.Unix math.MaxInt64 (toInt64 0))).val := by
  rw [Unix_MaxInt64_ext.2.2]
  have h := (time.UnixOf created).property.2
  have h63 : (2 : Int) ^ 63 = 9223372036854775808 := by norm_num
  omega

/-- Claim C2: in `QueryAddrs` (its read transaction open), when `params.CreatedBefore` is
the zero time the `CreatedBefore` bound handed to the backend's `FetchAddrs` is
`time.Unix(math.MaxInt64, 0)`; no address creation time has a later Unix timestamp than
that bound, so the created-before filter excludes no row; and a non-zero
`params.CreatedBefore` is handed to the backend unchanged. -/
theorem QueryAddrs_CreatedBefore_bound (c : Btcec) (t : TaroAddressBook)
    (params : QueryParams) (hb : t.db.beginErr = none) :
    ∃ q, (QueryAddrs c t params).calls = [BackendCall.FetchAddrs q] ∧
      (time.IsZero params.CreatedBefore = true →
        q.CreatedBefore = time.Unix math.MaxInt64 (toInt64 0) ∧
        (∀ created : Time,
          (time.UnixOf created).val ≤ (time.UnixOf q.CreatedBefore).val) ∧
        (∀ rows : List Addresses,
          rows.filter (fun r => createdBeforeKeeps q.CreatedBefore r.CreationTime) = rows)) ∧
      (time.IsZero params.CreatedBefore = false → q.CreatedBefore = params.CreatedBefore) := by
  refine ⟨_, QueryAddrs_calls c t params hb, ?_, ?_⟩
  · intro hz
    simp only [hz, if_true]
    refine ⟨trivial, UnixOf_le_Unix_MaxInt64, ?_⟩
    intro rows
    rw [List.filter_eq_self]
    intro r _
    unfold createdBeforeKeeps
    exact decide_eq_true (UnixOf_le_Unix_MaxInt64 r.CreationTime)
  · intro hz
    simp only [hz, Bool.false_eq_true, if_false]

/-- Claim C2 at the zero query over the empty backend. -/
theorem QueryAddrs_CreatedBefore_bound_witness :
    ∃ q, (QueryAddrs Sample.btcec Sample.emptyBook Sample.zeroParams).calls =
        [BackendCall.FetchAddrs q] ∧
      (time.IsZero Sample.zeroParams.CreatedBefore = true →
        q.CreatedBefore = time.Unix math.MaxInt64 (toInt64 0) ∧
        (∀ created : Time,
          (time.UnixOf created).val ≤ (time.UnixOf q.CreatedBefore).val) ∧
        (∀ rows : List Addresses,
          rows.filter (fun r => createdBeforeKeeps q.CreatedBefore r.CreationTime) = rows)) ∧
      (time.IsZero Sample.zeroParams.CreatedBefore = false →
        q.CreatedBefore = Sample.zeroParams.CreatedBefore) :=
  QueryAddrs_CreatedBefore_bound Sample.btcec Sample.emptyBook Sample.zeroParams rfl

/-- A non-zero `CreatedBefore` of November 2023 reaches the backend as it is. -/
theorem QueryAddrs_boundedParams_calls :
    time.IsZero Sample.boundedParams.CreatedBefore = false ∧
      (QueryAddrs Sample.btcec Sample.emptyBook Sample.boundedParams).calls =
        [BackendCall.FetchAddrs
          { CreatedAfter := time.zero,
            CreatedBefore := time.Unix ⟨1700000000, by norm_num⟩ ⟨0, by norm_num⟩,
            NumOffset := toInt32 0,
            NumLimit := ⟨10, by norm_num⟩ }] := by
  refine ⟨by decide, ?_⟩
  rw [QueryAddrs_calls Sample.btcec Sample.emptyBook Sample.boundedParams rfl]
  decide

/-! ## The sum column of a persisted node -/

/-- Claim C4 as stated fails: the values of `MssmtNode.Sum` are not exactly `0..2^64-1`;
a record can hold the sum -1. -/
theorem MssmtNode_Sum_range_counterexample :
    ¬ ∀ v : Int, (∃ n : MssmtNode, n.Sum.val = v) ↔ (0 ≤ v ∧ v < 2 ^ 64) := by
  intro h
  have h1 := (h (-1)).1
    ⟨{ HashKey := [], LHashKey := [], RHashKey := [], Key := [], Value := [],
       Sum := ⟨-1, by norm_num⟩, Namespace := "" }, rfl⟩
  omega

/-- Claim C4, amended: the sum field of the persisted node record (`MssmtNode.Sum`) is a
signed 64-bit quantity: it ranges exactly over `-2^63..2^63-1`. -/
theorem MssmtNode_Sum_range :
    ∀ v : Int, (∃ n : MssmtNode, n.Sum.val = v) ↔ (-(2 : Int) ^ 63 ≤ v ∧ v < 2 ^ 63) := by
  intro v
  constructor
  · rintro ⟨n, rfl⟩
    exact n.Sum.property
  · intro hv
    exact ⟨{ HashKey := [], LHashKey := [], RHashKey := [], Key := [], Value := [],
             Sum := ⟨v, hv⟩, Namespace := "" }, rfl⟩

/-! ## Resolution of the sync policy -/

/-- In a table whose key column has no duplicates, looking a key up finds the row with it. -/
theorem find_of_nodup_key {α : Type} (key : α → String) (l : List α) (k : String)
    (hnd : (l.map key).Nodup) (c : α) (hc : c ∈ l) (hk : key c = k) :
    l.find? (fun x => key x == k) = some c := by
  induction l with
  | nil => cases hc
  | cons x xs ih =>
    simp only [List.map_cons, List.nodup_cons] at hnd
    rcases List.mem_cons.1 hc with rfl | hmem
    · simp [List.find?_cons, hk]
    · have hx : key x ≠ k := by
        intro he
        apply hnd.1
        rw [he, ← hk]
        exact List.mem_map_of_mem key hmem
      have hb : (key x == k) = false := by simpa using hx
      rw [List.find?_cons, hb]
      exact ih hnd.2 hmem

/-- In a table without a row for a key, looking the key up finds nothing. -/
theorem find_of_no_key {α : Type} (key : α → String) (l : List α) (k : String)
    (h : ∀ c ∈ l, key c ≠ k) : l.find? (fun x => key x == k) = none := by
  rw [List.find?_eq_none]
  intro x hx
  simpa using h x hx

/-- Claim C5: over config tables keyed by namespace and by proof type, a per-namespace
config for the namespace decides through its two flags; without one, the global config for
the proof type decides; without either, insert and export are both denied. -/
theorem resolveSyncPolicy_order (uniConfigs : List FederationUniSyncConfig)
    (globalConfigs : List FederationGlobalSyncConfig) (namespaceID proofType : String)
    (hu : (uniConfigs.map (fun c => c.Namespace)).Nodup)
    (hg : (globalConfigs.map (fun g => g.ProofType)).Nodup) :
    (∀ c ∈ uniConfigs, c.Namespace = namespaceID →
        resolveSyncPolicy uniConfigs globalConfigs namespaceID proofType =
          { allowSyncInsert := c.AllowSyncInsert, allowSyncExport := c.AllowSyncExport }) ∧
      ((∀ c ∈ uniConfigs, c.Namespace ≠ namespaceID) →
        ∀ g ∈ globalConfigs, g.ProofType = proofType →
          resolveSyncPolicy uniConfigs globalConfigs namespaceID proofType =
            { allowSyncInsert := g.AllowSyncInsert, allowSyncExport := g.AllowSyncExport }) ∧
      ((∀ c ∈ uniConfigs, c.Namespace ≠ namespaceID) →
        (∀ g ∈ globalConfigs, g.ProofType ≠ proofType) →
          resolveSyncPolicy uniConfigs globalConfigs namespaceID proofType =
            { allowSyncInsert := false, allowSyncExport := false }) := by
  refine ⟨?_, ?_, ?_⟩
  · intro c hc hk
    unfold resolveSyncPolicy
    rw [find_of_nodup_key (fun c => c.Namespace) uniConfigs namespaceID hu c hc hk]
  · intro hno g hgm hk
    unfold resolveSyncPolicy
    rw [find_of_no_key (fun c => c.Namespace) uniConfigs namespaceID hno,
      find_of_nodup_key (fun g => g.ProofType) globalConfigs proofType hg g hgm hk]
  · intro hno hnog
    unfold resolveSyncPolicy
    rw [find_of_no_key (fun c => c.Namespace) uniConfigs namespaceID hno,
      find_of_no_key (fun g => g.ProofType) globalConfigs proofType hnog]

/-- Claim C5 on sample tables: the namespace with a config of its own follows it, a
namespace without one follows the global config of its proof type, and a namespace of a
proof type without global config is denied. -/
theorem resolveSyncPolicy_order_witness :
    (Sample.uniConfigs.map (fun c => c.Namespace)).Nodup ∧
      (Sample.globalConfigs.map (fun g => g.ProofType)).Nodup ∧
      resolveSyncPolicy Sample.uniConfigs Sample.globalConfigs "issuance-aa" "issuance" =
        { allowSyncInsert := true, allowSyncExport := false } ∧
      resolveSyncPolicy Sample.uniConfigs Sample.globalConfigs "issuance-bb" "issuance" =
        { allowSyncInsert := false, allowSyncExport := true } ∧
      resolveSyncPolicy Sample.uniConfigs Sample.globalConfigs "transfer-bb" "transfer" =
        { allowSyncInsert := false, allowSyncExport := false } := by
  have hu : (Sample.uniConfigs.map (fun c => c.Namespace)).Nodup := by decide
  have hg : (Sample.globalConfigs.map (fun g => g.ProofType)).Nodup := by decide
  refine ⟨hu, hg, ?_, ?_, ?_⟩
  · exact (resolveSyncPolicy_order Sample.uniConfigs Sample.globalConfigs "issuance-aa"
      "issuance" hu hg).1 _ (List.mem_singleton.2 rfl) rfl
  · exact (resolveSyncPolicy_order Sample.uniConfigs Sample.globalConfigs "issuance-bb"
      "issuance" hu hg).2.1 (by decide) _ (List.mem_singleton.2 rfl) rfl
  · exact (resolveSyncPolicy_order Sample.uniConfigs Sample.globalConfigs "transfer-bb"
      "transfer" hu hg).2.2 (by decide) (by decide)

/-! ## Insertion order in the MSSMT -/

namespace mssmt

/-- A byte is determined by its eight bits. -/
theorem byte_eq_of_testBit (a b : UInt8)
    (h : ∀ i, i < 8 → Nat.testBit a.toNat i = Nat.testBit b.toNat i) : a = b := by
  have ha : a.toNat < 2 ^ 8 := UInt8.toNat_lt a
  have hb : b.toNat < 2 ^ 8 := UInt8.toNat_lt b
  have hn : a.toNat = b.toNat := by
    apply Nat.eq_of_testBit_eq
    intro i
    by_cases hi : i < 8
    · exact h i hi
    · have h8 : 2 ^ 8 ≤ 2 ^ i := Nat.pow_le_pow_right (by norm_num) (by omega)
      rw [Nat.testBit_lt_two_pow (lt_of_lt_of_le ha h8),
        Nat.testBit_lt_two_pow (lt_of_lt_of_le hb h8)]
  exact UInt8.ext hn

/-- Two keys that agree on all 256 bits are equal. -/
theorem key_eq_of_bitIndex (k1 k2 : Key)
    (h : ∀ i, i < MaxTreeLevels → bitIndex i k1 = bitIndex i k2) : k1 = k2 := by
  apply Subtype.ext
  apply List.ext_getElem
  · rw [k1.property, k2.property]
  · intro j h1 h2
    have hj : j < 32 := by rw [← k1.property]; exact h1
    apply byte_eq_of_testBit
    intro i hi
    have hb := h (8 * j + i) (by unfold MaxTreeLevels; omega)
    unfold bitIndex at hb
    have e1 : (8 * j + i) / 8 = j := by omega
    have e2 : (8 * j + i) % 8 = i := by omega
    rw [e1, e2] at hb
    have g1 : (k1.val).getD j 0 = (k1.val)[j] := by
      simp [List.getD_eq_getElem?_getD, List.getElem?_eq_getElem h1]
    have g2 : (k2.val).getD j 0 = (k2.val)[j] := by
      simp [List.getD_eq_getElem?_getD, List.getElem?_eq_getElem h2]
    rw [g1, g2] at hb
    exact hb

/-- Two distinct keys differ in one of their 256 bits. -/
theorem exists_bitIndex_ne (k1 k2 : Key) (h : k1 ≠ k2) :
    ∃ i, i < MaxTreeLevels ∧ bitIndex i k1 ≠ bitIndex i k2 := by
  by_contra hc
  apply h
  apply key_eq_of_bitIndex
  intro i hi
  by_contra hne
  exact hc ⟨i, hi, hne⟩

/-- Below a node of height `h`, the walks of two keys that differ in one of the last `h`
bits commute. -/
theorem insertAt_comm (k1 k2 : Key) (v1 v2 : Bytes) (s1 s2 : uint64) :
    ∀ (h : Nat) (n : Node), h ≤ MaxTreeLevels →
      (∃ i, MaxTreeLevels - h ≤ i ∧ i < MaxTreeLevels ∧ bitIndex i k1 ≠ bitIndex i k2) →
      insertAt k1 v1 s1 h (insertAt k2 v2 s2 h n) =
        insertAt k2 v2 s2 h (insertAt k1 v1 s1 h n) := by
  intro h
  induction h with
  | zero =>
    intro n _ hex
    obtain ⟨i, h1, h2, _⟩ := hex
    omega
  | succ h ih =>
    intro n hle hex
    obtain ⟨i, h1, h2, hne⟩ := hex
    by_cases hb : bitIndex (MaxTreeLevels - (h + 1)) k1 = bitIndex (MaxTreeLevels - (h + 1)) k2
    · have hi : i ≠ MaxTreeLevels - (h + 1) := by
        intro he
        rw [he] at hne
        exact hne hb
      have hex2 : ∃ i, MaxTreeLevels - h ≤ i ∧ i < MaxTreeLevels ∧
          bitIndex i k1 ≠ bitIndex i k2 := ⟨i, by omega, h2, hne⟩
      have hle2 : h ≤ MaxTreeLevels := by omega
      cases hk : bitIndex (MaxTreeLevels - (h + 1)) k2 with
      | true =>
        rw [hk] at hb
        simp only [insertAt, hb, hk, Node.children, if_true]
        rw [ih _ hle2 hex2]
      | false =>
        rw [hk] at hb
        simp only [insertAt, hb, hk, Node.children, Bool.false_eq_true, if_false]
        rw [ih _ hle2 hex2]
    · cases hk1 : bitIndex (MaxTreeLevels - (h + 1)) k1 with
      | true =>
        have hk2 : bitIndex (MaxTreeLevels - (h + 1)) k2 = false := by
          rw [hk1] at hb
          cases hk : bitIndex (MaxTreeLevels - (h + 1)) k2 with
          | true => rw [hk] at hb; exact absurd rfl hb
          | false => rfl
        simp only [insertAt, hk1, hk2, Node.children, Bool.false_eq_true, if_true, if_false]
      | false =>
        have hk2 : bitIndex (MaxTreeLevels - (h + 1)) k2 = true := by
          rw [hk1] at hb
          cases hk : bitIndex (MaxTreeLevels - (h + 1)) k2 with
          | true => rfl
          | false => rw [hk] at hb; exact absurd rfl hb
        simp only [insertAt, hk1, hk2, Node.children, Bool.false_eq_true, if_true, if_false]

/-- Inserting under two distinct keys gives the same tree in either order. -/
theorem Insert_comm (root : Node) (k1 k2 : Key) (v1 v2 : Bytes) (s1 s2 : uint64)
    (h : k1 ≠ k2) :
    Insert (Insert root k2 v2 s2) k1 v1 s1 = Insert (Insert root k1 v1 s1) k2 v2 s2 := by
  unfold Insert
  obtain ⟨i, hi, hne⟩ := exists_bitIndex_ne k1 k2 h
  exact insertAt_comm k1 k2 v1 v2 s1 s2 MaxTreeLevels root (le_refl _) ⟨i, by omega, hi, hne⟩

/-- Inserting two orderings of the same triples, with distinct keys, into one tree gives
the same tree. -/
theorem foldl_Insert_perm (l1 l2 : List (Key × Bytes × uint64)) (hp : l1.Perm l2) :
    ∀ (root : Node), (l1.map (fun e => e.1)).Nodup →
      l1.foldl (fun r e => Insert r e.1 e.2.1 e.2.2) root =
        l2.foldl (fun r e => Insert r e.1 e.2.1 e.2.2) root := by
  induction hp with
  | nil => intro root _; rfl
  | cons x _ ih =>
    intro root hnd
    simp only [List.map_cons, List.nodup_cons] at hnd
    simp only [List.foldl_cons]
    exact ih _ hnd.2
  | swap x y l =>
    intro root hnd
    simp only [List.map_cons, List.nodup_cons, List.mem_cons] at hnd
    have hxy : x.1 ≠ y.1 := by
      intro he
      exact hnd.1 (Or.inl he.symm)
    simp only [List.foldl_cons]
    rw [Insert_comm root x.1 y.1 x.2.1 y.2.1 x.2.2 y.2.2 hxy]
  | trans h1 _ ih1 ih2 =>
    intro root hnd
    rw [ih1 root hnd]
    exact ih2 root (((h1.map (fun e => e.1)).nodup_iff).1 hnd)

/-- Claim C6: for every list of (key, value, sum) triples with distinct keys and every
reordering of it, inserting the triples into the empty MSSMT in either order yields the
same root hash and the same root sum, whatever the hash function. -/
theorem InsertAll_rootHash_perm (hs : Hasher) (l1 l2 : List (Key × Bytes × uint64))
    (hp : l1.Perm l2) (hnd : (l1.map (fun e => e.1)).Nodup) :
    rootHash hs (InsertAll l1) = rootHash hs (InsertAll l2) ∧
      rootSum (InsertAll l1) = rootSum (InsertAll l2) := by
  have h : InsertAll l1 = InsertAll l2 := foldl_Insert_perm l1 l2 hp Node.empty hnd
  rw [h]
  exact ⟨rfl, rfl⟩

/-- Claim C6 on two entries: inserting them in either order gives the same root. -/
theorem InsertAll_rootHash_perm_witness :
    Sample.entries.Perm Sample.entries.reverse ∧
      (Sample.entries.map (fun e => e.1)).Nodup ∧
      rootHash Sample.hasher (InsertAll Sample.entries) =
        rootHash Sample.hasher (InsertAll Sample.entries.reverse) ∧
      rootSum (InsertAll Sample.entries) = rootSum (InsertAll Sample.entries.reverse) :=
  ⟨(List.reverse_perm Sample.entries).symm, by decide,
    InsertAll_rootHash_perm Sample.hasher Sample.entries Sample.entries.reverse
      (List.reverse_perm Sample.entries).symm (by decide)⟩

end mssmt

end Taproot
